import Mathlib

/-!
Shallow embedding of `src/flash-code/flash.c` from stm32l0xx-hal.

The C source is a single routine:

  __attribute__((section(".data")))
  void write_half_page(uint32_t *address, uint32_t *words) {
      uint32_t i = 0;
      while (i < 16) {
          *(address + i) = *(words + i);
          i++;
      }
  }

Memory is modelled as a single word-addressed address space `Nat → Nat`
(each cell holds one 32-bit word value; the routine only copies values, so
no arithmetic modulo 2^32 arises).  Pointer arithmetic on `uint32_t *` in C
advances one word per unit, so `address + i` below corresponds to byte
offset `i * 4` in the hardware.  The loop counter `i` is a `uint32_t` that
stays in `[0, 16]`, so it never wraps and is embedded as a `Nat`.
-/

/-- Word-addressed memory: a total map from word addresses to word values. -/
abbrev Mem : Type := Nat → Nat

/-- A single store of value `v` at word address `a`: the embedding of
`*(p) = v`. -/
def store (m : Mem) (a v : Nat) : Mem :=
  fun x => if x = a then v else m x

/-- The `while (i < 16)` loop of `write_half_page`, as structural recursion
on the remaining iteration count `fuel = 16 - i`.  Each step performs
`*(address + i) = *(words + i); i++`: the value stored is read from the
current memory at `words + i`, exactly as the C code reads through the
`words` pointer. -/
def whpLoop (address words : Nat) : Nat → Nat → Mem → Mem
  | _, 0, m => m
  | i, fuel + 1, m =>
      whpLoop address words (i + 1) fuel (store m (address + i) (m (words + i)))

/-- Embedding of `write_half_page(address, words)`: run the loop from
`i = 0` for its 16 iterations on memory `m`, returning the final memory. -/
def write_half_page (address words : Nat) (m : Mem) : Mem :=
  whpLoop address words 0 16 m

/-- Instrumented version of the loop that also records, in execution order,
the loop index `i` of every store performed (the spec's "instrument the
memory region to record write order").  The memory component performs
exactly the stores of `whpLoop`. -/
def whpTraceLoop (address words : Nat) : Nat → Nat → Mem → Mem × List Nat
  | _, 0, m => (m, [])
  | i, fuel + 1, m =>
      let r := whpTraceLoop address words (i + 1) fuel (store m (address + i) (m (words + i)))
      (r.1, i :: r.2)

/-- Instrumented `write_half_page`: final memory together with the ordered
list of store indices. -/
def whpTrace (address words : Nat) (m : Mem) : Mem × List Nat :=
  whpTraceLoop address words 0 16 m

/-- Guarded version of the loop that models the `while` guard explicitly:
`fuel` bounds how many times the guard `i < 16` may be evaluated, and the
loop returns `none` when the guard budget is exhausted before the guard
fails.  `whpGuard address words fuel 0 m = some mF` states that the C loop,
started at `i = 0`, terminates within `fuel` guard evaluations with final
memory `mF`. -/
def whpGuard (address words : Nat) : Nat → Nat → Mem → Option Mem
  | 0, _, _ => none
  | fuel + 1, i, m =>
      if i < 16 then
        whpGuard address words fuel (i + 1) (store m (address + i) (m (words + i)))
      else
        some m

/-- Modelled from the spec: the second, pre-decrement-style variant of the
16-word copy routine described in the design notes ("one using
index-counting repetition, one using a pre-decrement-style loop"), which is
not present under `src/`.  Per the spec the two variants are behaviorally
identical "with no change to the specified contract", and the contract
requires stores in strictly increasing index order; so the variant is a
count-down counter with advancing pointers, i.e. the C idiom
`uint32_t i = 16; do { *address++ = *words++; } while (--i);`. -/
def whpDownLoop : Nat → Nat → Nat → Mem → Mem
  | _, _, 0, m => m
  | address, words, n + 1, m =>
      whpDownLoop (address + 1) (words + 1) n (store m address (m words))

/-- Modelled from the spec: entry point of the pre-decrement-style variant,
16 iterations starting at the two buffer bases. -/
def write_half_page_predecrement (address words : Nat) (m : Mem) : Mem :=
  whpDownLoop address words 16 m

/-! ### Helper lemmas about the loop -/

/-- Frame lemma for the loop: an address hit by none of the remaining
stores (which go to `address + j` for `i ≤ j < i + fuel`) is unchanged. -/
theorem whpLoop_frame (address words : Nat) (fuel : Nat) :
    ∀ (i : Nat) (m : Mem) (x : Nat),
      (∀ j, i ≤ j → j < i + fuel → x ≠ address + j) →
      whpLoop address words i fuel m x = m x := by
  induction fuel with
  | zero => intro i m x _; rfl
  | succ f ih =>
      intro i m x hx
      show whpLoop address words (i + 1) f (store m (address + i) (m (words + i))) x = m x
      rw [ih (i + 1) _ x (fun j h1 h2 => hx j (by omega) (by omega))]
      show (if x = address + i then m (words + i) else m x) = m x
      rw [if_neg (hx i (Nat.le_refl i) (by omega))]

/-- Copy lemma for the loop: when the write range `address + [i, i+fuel)`
and the read range `words + [i, i+fuel)` are disjoint, the loop run from
`i` leaves `m (words + j)` at `address + j` for every `j` in the range. -/
theorem whpLoop_copies (address words : Nat) (fuel : Nat) :
    ∀ (i : Nat) (m : Mem) (j : Nat),
      i ≤ j → j < i + fuel →
      (∀ p, i ≤ p → p < i + fuel → ∀ q, i ≤ q → q < i + fuel → address + p ≠ words + q) →
      whpLoop address words i fuel m (address + j) = m (words + j) := by
  induction fuel with
  | zero => intro i m j h1 h2 _; omega
  | succ f ih =>
      intro i m j h1 h2 hdisj
      show whpLoop address words (i + 1) f
          (store m (address + i) (m (words + i))) (address + j) = m (words + j)
      rcases Nat.eq_or_lt_of_le h1 with heq | hlt
      · subst heq
        rw [whpLoop_frame address words f (i + 1) _ (address + i)
              (fun k hk1 hk2 => by omega)]
        show (if address + i = address + i then m (words + i) else m (address + i))
            = m (words + i)
        rw [if_pos rfl]
      · rw [ih (i + 1) _ j hlt (by omega)
              (fun p hp1 hp2 q hq1 hq2 => hdisj p (by omega) (by omega) q (by omega) (by omega))]
        show (if words + j = address + i then m (words + i) else m (words + j))
            = m (words + j)
        rw [if_neg (fun hc =>
          hdisj i (Nat.le_refl i) (by omega) j (by omega) (by omega) hc.symm)]

/-- The instrumented run performs the same stores as `write_half_page`. -/
theorem whpTrace_fst (address words : Nat) (m : Mem) :
    (whpTrace address words m).1 = write_half_page address words m := rfl

/-- The instrumented run records exactly the indices `0, 1, ..., 15`, in
execution order. -/
theorem whpTrace_snd (address words : Nat) (m : Mem) :
    (whpTrace address words m).2 = List.range 16 := rfl

/-- Shifting the loop start: running from index `i + 1` with bases
`address, words` is running from index `i` with bases one word higher. -/
theorem whpLoop_shift (address words : Nat) (fuel : Nat) :
    ∀ (i : Nat) (m : Mem),
      whpLoop address words (i + 1) fuel m = whpLoop (address + 1) (words + 1) i fuel m := by
  induction fuel with
  | zero => intro i m; rfl
  | succ f ih =>
      intro i m
      show whpLoop address words (i + 1 + 1) f
            (store m (address + (i + 1)) (m (words + (i + 1))))
          = whpLoop (address + 1) (words + 1) (i + 1) f
            (store m (address + 1 + i) (m (words + 1 + i)))
      have h1 : address + (i + 1) = address + 1 + i := by omega
      have h2 : words + (i + 1) = words + 1 + i := by omega
      rw [h1, h2, ih (i + 1) _]

/-- The count-down variant's loop computes the same memory as the plain
loop started at index 0. -/
theorem whpDownLoop_eq (fuel : Nat) :
    ∀ (address words : Nat) (m : Mem),
      whpDownLoop address words fuel m = whpLoop address words 0 fuel m := by
  induction fuel with
  | zero => intro a w m; rfl
  | succ f ih =>
      intro a w m
      show whpDownLoop (a + 1) (w + 1) f (store m a (m w))
          = whpLoop a w 1 f (store m (a + 0) (m (w + 0)))
      rw [ih (a + 1) (w + 1) _, ← whpLoop_shift a w f 0]
      rfl

/-! ### Claim theorems -/

/-- Claim C1, as stated, is false: without a separation hypothesis between
the destination and source ranges, the word at `destination + i` need not
equal the pre-call `source[i]`.  With `destination = 1`, `source = 0` and
memory `fun x => x`, the store at index 0 clobbers the cell `source + 1`
before iteration 1 reads it, so the word at `destination + 1` ends up `0`
while `source[1] = 1`. -/
theorem write_half_page_unconditional_copy_false :
    ¬ (∀ (address words : Nat) (m : Mem) (i : Nat), i < 16 →
        write_half_page address words m (address + i) = m (words + i)) :=
  fun h => absurd (h 1 0 (fun x => x) 1 (by decide)) (by decide)

/-- Claim C1 (amended): when the 16-word destination range and the 16-word
source range are disjoint, after `write_half_page address words m` the
memory word at `address + i` equals the pre-call source word `m (words + i)`
for every `i < 16`. -/
theorem write_half_page_copies_each_word (address words : Nat) (m : Mem) (i : Nat)
    (hi : i < 16)
    (hdisj : ∀ j, j < 16 → ∀ k, k < 16 → address + j ≠ words + k) :
    write_half_page address words m (address + i) = m (words + i) :=
  whpLoop_copies address words 16 0 m i (Nat.zero_le i) (by omega)
    (fun p _ hp2 q _ hq2 => hdisj p (by omega) q (by omega))

/-- Witness for C1's amended theorem at destination 100, source 0, memory
`fun x => x`, index 5. -/
theorem write_half_page_copies_each_word_witness :
    write_half_page 100 0 (fun x => x) (100 + 5) = (fun x => x) (0 + 5) :=
  write_half_page_copies_each_word 100 0 (fun x => x) 5 (by decide) (by decide)

/-- Claim C2: the instrumented run of `write_half_page` performs exactly 16
stores, one per index, in strictly increasing index order `0, 1, ..., 15`
with no index repeated and no reordering, and its memory effect is exactly
that of `write_half_page`. -/
theorem write_half_page_store_order (address words : Nat) (m : Mem) :
    (whpTrace address words m).2 = List.range 16 ∧
    (whpTrace address words m).2.length = 16 ∧
    List.Pairwise (· < ·) (whpTrace address words m).2 ∧
    (whpTrace address words m).2.Nodup ∧
    (whpTrace address words m).1 = write_half_page address words m := by
  refine ⟨rfl, rfl, ?_, ?_, rfl⟩
  · rw [whpTrace_snd]
    exact List.pairwise_lt_range 16
  · rw [whpTrace_snd]
    exact List.nodup_range 16

/-- Claim C4: every memory word outside the 16-word destination range
`[address, address + 16)` is unchanged by `write_half_page`. -/
theorem write_half_page_frame (address words : Nat) (m : Mem) (x : Nat)
    (hx : ∀ j, j < 16 → x ≠ address + j) :
    write_half_page address words m x = m x :=
  whpLoop_frame address words 16 0 m x (fun j _ hj2 => hx j (by omega))

/-- Witness for C4 at destination 100, address 5 outside the range. -/
theorem write_half_page_frame_witness :
    write_half_page 100 0 (fun x => x) 5 = (fun x => x) 5 :=
  write_half_page_frame 100 0 (fun x => x) 5 (by decide)

/-- Claim C5: `write_half_page` terminates on every input as a single
linear pass of exactly 16 iterations: the guarded loop started at `i = 0`
reaches the failed guard within 17 guard evaluations (16 iterations plus
the final check) with exactly the memory `write_half_page` computes, and it
has not yet finished within 16 guard evaluations. -/
theorem write_half_page_terminates_in_16_iterations (address words : Nat) (m : Mem) :
    whpGuard address words 17 0 m = some (write_half_page address words m) ∧
    whpGuard address words 16 0 m = none :=
  ⟨rfl, rfl⟩

/-- Claim C6: `write_half_page` completes normally on every input — for
every destination, source and memory the guarded run returns a final
memory, never the error outcome `none`; no argument validation or error
branch exists. -/
theorem write_half_page_completes_normally (address words : Nat) (m : Mem) :
    ∃ mF, whpGuard address words 17 0 m = some mF :=
  ⟨write_half_page address words m, rfl⟩

/-- Claim C7, as stated, is false: requiring only the two destination
ranges to be non-overlapping is not enough, because a destination range may
still alias the source range.  With `d1 = 1`, `d2 = 100`, `source = 0` and
memory `fun x => x`, the first call's store at index 0 clobbers the cell
`source + 1` before its iteration 1 reads it, so after both calls the word
at `d1 + 1` is `0` while `source[1] = 1`. -/
theorem write_half_page_stateless_unconditional_false :
    ¬ (∀ (d1 d2 words : Nat) (m : Mem) (i : Nat), i < 16 →
        (∀ j, j < 16 → ∀ k, k < 16 → d1 + j ≠ d2 + k) →
        write_half_page d2 words (write_half_page d1 words m) (d1 + i) = m (words + i) ∧
        write_half_page d2 words (write_half_page d1 words m) (d2 + i) = m (words + i)) :=
  fun h => absurd (h 1 100 0 (fun x => x) 1 (by decide) (by decide)).1 (by decide)

/-- Claim C7 (amended): `write_half_page` is stateless across calls — after
two sequential calls with the same source and two destinations whose
16-word ranges are disjoint from each other and from the 16-word source
range, each destination independently holds the source words. -/
theorem write_half_page_stateless_two_destinations
    (d1 d2 words : Nat) (m : Mem) (i : Nat) (hi : i < 16)
    (h12 : ∀ j, j < 16 → ∀ k, k < 16 → d1 + j ≠ d2 + k)
    (h1w : ∀ j, j < 16 → ∀ k, k < 16 → d1 + j ≠ words + k)
    (h2w : ∀ j, j < 16 → ∀ k, k < 16 → d2 + j ≠ words + k) :
    write_half_page d2 words (write_half_page d1 words m) (d1 + i) = m (words + i) ∧
    write_half_page d2 words (write_half_page d1 words m) (d2 + i) = m (words + i) := by
  constructor
  · exact Eq.trans
      (whpLoop_frame d2 words 16 0 (write_half_page d1 words m) (d1 + i)
        (fun j _ hj2 => h12 i hi j (by omega)))
      (whpLoop_copies d1 words 16 0 m i (Nat.zero_le i) (by omega)
        (fun p _ hp2 q _ hq2 => h1w p (by omega) q (by omega)))
  · exact Eq.trans
      (whpLoop_copies d2 words 16 0 (write_half_page d1 words m) i (Nat.zero_le i) (by omega)
        (fun p _ hp2 q _ hq2 => h2w p (by omega) q (by omega)))
      (whpLoop_frame d1 words 16 0 m (words + i)
        (fun j _ hj2 hc => h1w j (by omega) i hi hc.symm))

/-- Witness for C7 at destinations 100 and 200, source 0, index 3. -/
theorem write_half_page_stateless_two_destinations_witness :
    write_half_page 200 0 (write_half_page 100 0 (fun x => x)) (100 + 3)
      = (fun x => x) (0 + 3) ∧
    write_half_page 200 0 (write_half_page 100 0 (fun x => x)) (200 + 3)
      = (fun x => x) (0 + 3) :=
  write_half_page_stateless_two_destinations 100 200 0 (fun x => x) 3
    (by decide) (by decide) (by decide) (by decide)

/-- Claim C8: the index-counting variant from `src/flash-code/flash.c` and
the pre-decrement-style variant (modelled from the spec) are behaviorally
identical — for every destination, source and memory they produce the same
final memory state. -/
theorem write_half_page_variants_equivalent (address words : Nat) (m : Mem) :
    write_half_page_predecrement address words m = write_half_page address words m :=
  whpDownLoop_eq 16 address words m

/-- Claim C9: when the destination and source ranges are disjoint, the
source buffer is unchanged by the call — `write_half_page` never writes to
the source range. -/
theorem write_half_page_source_unchanged (address words : Nat) (m : Mem) (k : Nat)
    (hk : k < 16)
    (hdisj : ∀ j, j < 16 → ∀ k2, k2 < 16 → address + j ≠ words + k2) :
    write_half_page address words m (words + k) = m (words + k) :=
  whpLoop_frame address words 16 0 m (words + k)
    (fun j _ hj2 hc => hdisj j (by omega) k hk hc.symm)

/-- Witness for C9 at destination 100, source 0, source index 7. -/
theorem write_half_page_source_unchanged_witness :
    write_half_page 100 0 (fun x => x) (0 + 7) = (fun x => x) (0 + 7) :=
  write_half_page_source_unchanged 100 0 (fun x => x) 7 (by decide) (by decide)

/-- Claim C10: over the plain-memory embedding, `write_half_page` is
idempotent when the destination and source ranges are disjoint — calling
twice with the same arguments yields the same memory as calling once, at
every address. -/
theorem write_half_page_idempotent (address words : Nat) (m : Mem)
    (hdisj : ∀ j, j < 16 → ∀ k, k < 16 → address + j ≠ words + k) (x : Nat) :
    write_half_page address words (write_half_page address words m) x
      = write_half_page address words m x := by
  by_cases hx : ∃ j, j < 16 ∧ x = address + j
  · obtain ⟨j, hj, rfl⟩ := hx
    have hcopy2 : write_half_page address words (write_half_page address words m) (address + j)
        = write_half_page address words m (words + j) :=
      whpLoop_copies address words 16 0 (write_half_page address words m) j
        (Nat.zero_le j) (by omega)
        (fun p _ hp2 q _ hq2 => hdisj p (by omega) q (by omega))
    have hsrc : write_half_page address words m (words + j) = m (words + j) :=
      whpLoop_frame address words 16 0 m (words + j)
        (fun k _ hk2 hc => hdisj k (by omega) j hj hc.symm)
    have hcopy1 : write_half_page address words m (address + j) = m (words + j) :=
      whpLoop_copies address words 16 0 m j (Nat.zero_le j) (by omega)
        (fun p _ hp2 q _ hq2 => hdisj p (by omega) q (by omega))
    rw [hcopy2, hsrc, hcopy1]
  · exact whpLoop_frame address words 16 0 (write_half_page address words m) x
      (fun j _ hj2 hc => hx ⟨j, by omega, hc⟩)

/-- Witness for C10 at destination 100, source 0, observed address 105. -/
theorem write_half_page_idempotent_witness :
    write_half_page 100 0 (write_half_page 100 0 (fun x => x)) 105
      = write_half_page 100 0 (fun x => x) 105 :=
  write_half_page_idempotent 100 0 (fun x => x) (by decide) 105
